import Mathlib

/-!
Shallow embedding of the `websearch` repository (CORE-MFG/websearch).

Conventions of the embedding:
* Python strings are Lean `String` (a wrapper around `List Char`); Python
  slicing `t[:m]`, `str.split()` / `' '.join(...)`, `.lower()` and substring
  containment are modelled character-by-character below.
* The external collaborators (the DDGS search provider, the HTTP client and
  the trafilatura text extractor) are opaque in the source, so they enter the
  embedding as function-valued parameters: the provider is a function from the
  resolved call arguments to either an error or a list of raw hits, the HTTP
  client is a function from a URL string to either a request failure or a
  response (status code, content-type header, body chunks or a read/decode
  failure), and the extractor is a function from the fetched body to an
  optional extracted text (Python `None` is `Option.none`).
* `pydantic.HttpUrl` validation (schema.py line 17) is modelled by parsing the
  candidate string with `urlparse` and requiring an `http`/`https` scheme and
  a nonempty host; pydantic's percent-encoding and trailing-slash
  normalisation and its scheme charset checks are abstracted away, and the
  stored URL keeps the parsed components.  A raised `ValidationError` is an
  `Except.error`.
* Logging calls have no effect on any returned value and are dropped.
* Exceptions that a function catches internally never escape it, so such a
  function is total here; exceptions that propagate (the provider failure and
  the pydantic `ValidationError` in `WebSearch._ainvoke`) are `Except.error`.
-/

/-- Python's `str` whitespace test for the characters relevant to `str.split()`
(space, tab, newline, carriage return, vertical tab, form feed). -/
def isPySpace (c : Char) : Bool :=
  c == ' ' || c == '\t' || c == '\n' || c == '\r' || c == '\x0b' || c == '\x0c'

/-- Accumulator pass of Python `str.split()`: splits a character list on runs
of whitespace, discarding empty tokens. -/
def splitWsAux (acc : List Char) : List Char → List (List Char)
  | [] => if acc = [] then [] else [acc.reverse]
  | c :: cs =>
    if isPySpace c then
      if acc = [] then splitWsAux [] cs else acc.reverse :: splitWsAux [] cs
    else splitWsAux (c :: acc) cs

/-- Python `' '.join(tokens)`. -/
def joinSpace : List (List Char) → List Char
  | [] => []
  | [t] => t
  | t :: ts => t ++ ' ' :: joinSpace ts

/-- Python `' '.join(s.split())` — collapse every whitespace run to a single
space (scraper.py line 131). -/
def collapseWs (s : String) : String :=
  String.mk (joinSpace (splitWsAux [] s.data))

/-- Python `s.lower()` (ASCII case folding suffices for the header values the
code compares). -/
def strToLower (s : String) : String :=
  String.mk (s.data.map Char.toLower)

/-- Whether `pat` is an initial segment of `l` (helper for Python's substring
test). -/
def leadsWith : List Char → List Char → Bool
  | [], _ => true
  | _ :: _, [] => false
  | p :: ps, c :: cs => p == c && leadsWith ps cs

/-- Whether `pat` occurs somewhere in `l` (Python `pat in s`). -/
def containsSub (pat : List Char) : List Char → Bool
  | [] => leadsWith pat []
  | c :: cs => leadsWith pat (c :: cs) || containsSub pat cs

/-- Python substring containment `pat in hay` on strings. -/
def strContains (hay pat : String) : Bool :=
  containsSub pat.data hay.data

/-- Whether a character list begins with the literal separator `"://"`. -/
def startsWithSep : List Char → Bool
  | ':' :: '/' :: '/' :: _ => true
  | _ => false

/-- Split a character list at the first occurrence of `"://"`, returning the
part before and the part after the separator. -/
def splitSep : List Char → Option (List Char × List Char)
  | [] => none
  | c :: cs =>
    if startsWithSep (c :: cs) then some ([], (c :: cs).drop 3)
    else
      match splitSep cs with
      | none => none
      | some p => some (c :: p.1, p.2)

/-- Split a character list at the first `'/'`, returning the part before and
the part after it. -/
def splitSlash : List Char → Option (List Char × List Char)
  | [] => none
  | c :: cs =>
    if c = '/' then some ([], cs)
    else
      match splitSlash cs with
      | none => none
      | some p => some (c :: p.1, p.2)

/-- The components of a parsed URL that the code inspects: `scheme`, `netloc`
(the host part) and the remainder (path/query/fragment). -/
structure ParsedUrl where
  scheme : String
  netloc : String
  rest : String
deriving DecidableEq

/-- `urllib.parse.urlparse` restricted to the components the code reads
(scraper.py line 77): the scheme is the part before the first `"://"`, the
netloc runs from there to the next `'/'`, the rest is the remainder.  A string
with no `"://"` parses with empty scheme and netloc, as in Python
(`urlparse("example.com")` has `scheme="" netloc=""`).  Python's scheme
charset restrictions and lowercasing are abstracted away. -/
def urlparse (s : String) : ParsedUrl :=
  match splitSep s.data with
  | none => ParsedUrl.mk "" "" s
  | some (sch, after) =>
    match splitSlash after with
    | none => ParsedUrl.mk (String.mk sch) (String.mk after) ""
    | some (nl, r) => ParsedUrl.mk (String.mk sch) (String.mk nl) (String.mk ('/' :: r))

/-- `pydantic.HttpUrl.encoded_string()` — serialise the stored URL components
back to text (percent-encoding normalisation abstracted away). -/
def encodedString (u : ParsedUrl) : String :=
  u.scheme ++ "://" ++ u.netloc ++ u.rest

/-- `pydantic.HttpUrl` validation of the `url` field of `SearchResult`
(schema.py line 17): the input must be a string (a missing dict value is
Python `None`, which pydantic rejects) whose parse has an `http`/`https`
scheme and a nonempty host; otherwise construction raises a
`ValidationError`. -/
def validateHttpUrl : Option String → Except String ParsedUrl
  | none => Except.error "URL input should be a string or URL"
  | some s =>
    let p := urlparse s
    if (p.scheme = "http" ∨ p.scheme = "https") ∧ p.netloc ≠ "" then Except.ok p
    else Except.error "Input should be a valid URL"

/-- Python `x or d` for an optional integer argument: `None` and `0` are both
falsy, so both fall back to the default. -/
def pyOrNat (x : Option Nat) (d : Nat) : Nat :=
  match x with
  | none => d
  | some v => if v = 0 then d else v

/-- Python `x or d` for an optional boolean argument. -/
def pyOrBool (x : Option Bool) (d : Bool) : Bool :=
  match x with
  | none => d
  | some b => if b then b else d

/-- Python `x or d` for an optional string argument: `None` and `""` are both
falsy. -/
def pyOrStr (x : Option String) (d : String) : String :=
  match x with
  | none => d
  | some s => if s = "" then d else s

/-- The closed set of search backends (websearch.py lines 16-22). -/
inductive Backends where
  | duckduckgo
  | google
  | bing
  | brave
  | yahoo
  | yandex
deriving DecidableEq

/-- Python `x or d` for an optional backend: every `Backends` member has a
nonempty string value, hence is truthy, so only `None` falls back. -/
def pyOrBackend (x : Option Backends) (d : Backends) : Backends :=
  match x with
  | none => d
  | some b => b

/-- `SearchResult` (schema.py lines 7-20): a validated URL plus three text
fields.  Immutable; `model_copy(update=...)` builds a new value. -/
structure SearchResult where
  url : ParsedUrl
  title : String
  snippet : String
  content : String
deriving DecidableEq

/-- `SearchResults` (schema.py lines 22-29): an ordered collection of
results. -/
structure SearchResults where
  data : List SearchResult
deriving DecidableEq

/-- One raw hit from the DDGS provider: `result.get("href")` etc. return
`None` when the key is missing, hence the optional fields. -/
structure RawHit where
  href : Option String
  title : Option String
  body : Option String

/-- Failure modes of one HTTP fetch, all caught inside
`WebScraper.fetch_content` (scraper.py lines 138-152). -/
inductive FetchError where
  | timeout
  | connectionError
  | httpStatusError (code : Nat)
  | requestError
  | decodeError
  | otherError
deriving DecidableEq

/-- The parts of an HTTP response the scraper reads: status code, the
`content-type` header (the empty string when the header is absent, matching
`headers.get('content-type', '')`), and the streamed body — either the list
of decoded chunks or a failure raised while reading/decoding. -/
structure Response where
  statusCode : Nat
  contentType : String
  body : Except FetchError (List String)

/-- The external world seen by the scraper: the HTTP client as a map from a
URL string to an outcome, and the trafilatura extractor (with the fixed
configuration of scraper.py lines 111-117) as a map from the fetched body to
an optional extracted text. -/
structure ScrapeEnv where
  http : String → Except FetchError Response
  extract : String → Option String

/-- `WebScraper.__init__` configuration (scraper.py lines 34-50). -/
structure ScraperConfig where
  timeout : Nat
  maxContentLength : Nat

/-- The constructor defaults `WebScraper(timeout=10, max_content_length=10000)`;
`WebSearch._ainvoke` builds its scraper as plain `WebScraper()`. -/
def defaultScraperCfg : ScraperConfig := ScraperConfig.mk 10 10000

/-- The body-reading loop of scraper.py lines 104-108 (`# Fetch all content
first`): every truthy chunk is appended; no budget is applied while
reading. -/
def readChunks (chunks : List String) : String :=
  chunks.foldl (fun acc c => if c = "" then acc else acc ++ c) ""

/-- The truncation step of scraper.py lines 119-122: text longer than the
budget is cut to the first `m` characters. -/
def truncateText (t : String) (m : Nat) : String :=
  if m < t.length then String.mk (t.data.take m) else t

/-- `WebScraper.fetch_content` (scraper.py lines 61-152).  Every exception is
caught and turned into "return the input unchanged", so the model is a total
function.  Order of steps mirrors the source: resolve the budget with the
falsy-or pattern, parse and guard the URL, issue the request, check
`raise_for_status` (raises exactly for status 400-599), check the
content-type header for `"text/html"`, read the body chunks, run the
extractor, truncate to the budget, bail out if the (truncated) text is empty,
collapse whitespace and store the cleaned text in `content`. -/
def WebScraper.fetch_content (cfg : ScraperConfig) (env : ScrapeEnv)
    (search_result : SearchResult) (max_content_length : Option Nat) : SearchResult :=
  let maxLen := pyOrNat max_content_length cfg.maxContentLength
  let url := encodedString search_result.url
  let parsed := urlparse url
  if parsed.scheme = "" ∨ parsed.netloc = "" then search_result
  else
    match env.http url with
    | Except.error _ => search_result
    | Except.ok response =>
      if 400 ≤ response.statusCode ∧ response.statusCode < 600 then search_result
      else if strContains (strToLower response.contentType) "text/html" = false then search_result
      else
        match response.body with
        | Except.error _ => search_result
        | Except.ok chunks =>
          match env.extract (readChunks chunks) with
          | none => search_result
          | some extracted =>
            let t := truncateText extracted maxLen
            if t = "" then search_result
            else SearchResult.mk search_result.url search_result.title
              search_result.snippet (collapseWs t)

/-- The post-extraction tail of `fetch_content` (scraper.py lines 119-136) as
a standalone function of the extractor's output: truncate, bail out on empty,
collapse whitespace, store. -/
def afterExtract (search_result : SearchResult) (maxLen : Nat) :
    Option String → SearchResult
  | none => search_result
  | some extracted =>
    let t := truncateText extracted maxLen
    if t = "" then search_result
    else SearchResult.mk search_result.url search_result.title
      search_result.snippet (collapseWs t)

/-- `WebScraper.fetch_multiple` (scraper.py lines 154-175): apply
`fetch_content` to every entry in input order, building a fresh collection. -/
def WebScraper.fetch_multiple (cfg : ScraperConfig) (env : ScrapeEnv)
    (search_results : SearchResults) (max_content_length : Option Nat) : SearchResults :=
  SearchResults.mk (search_results.data.map
    (fun r => WebScraper.fetch_content cfg env r max_content_length))

/-- Errors that escape `WebSearch._ainvoke` to the caller: a provider-level
failure of the `ddgs.text` call, or a pydantic `ValidationError` raised while
constructing a `SearchResult`. -/
inductive SearchError where
  | provider (e : String)
  | validation (e : String)
deriving DecidableEq

/-- The mapping of one raw hit to a `SearchResult` (websearch.py lines
110-115): url from `href` through pydantic validation (which can raise),
title and snippet/content from `title`/`body` with the falsy-or fallback
strings. -/
def mkSearchResult (hit : RawHit) : Except SearchError SearchResult :=
  match validateHttpUrl hit.href with
  | Except.error e => Except.error (SearchError.validation e)
  | Except.ok u =>
    Except.ok (SearchResult.mk u
      (pyOrStr hit.title "no title from ddgs")
      (pyOrStr hit.body "no body from ddgs")
      (pyOrStr hit.body "no body from ddgs"))

/-- The result-mapping loop of websearch.py lines 109-115: hits are converted
in order and the first `ValidationError` aborts the whole call. -/
def mapHits : List RawHit → Except SearchError (List SearchResult)
  | [] => Except.ok []
  | h :: t =>
    match mkSearchResult h with
    | Except.error e => Except.error e
    | Except.ok r =>
      match mapHits t with
      | Except.error e => Except.error e
      | Except.ok rs => Except.ok (r :: rs)

/-- The `WebSearch` class attributes (websearch.py lines 43-48). -/
structure WebSearchDefaults where
  fetch_content : Bool
  max_results : Nat
  safesearch : String
  backend : Backends
  fetch_content_max_chars : Nat

/-- The literal class-attribute values of `WebSearch`. -/
def websearchDefaults : WebSearchDefaults :=
  WebSearchDefaults.mk false 5 "moderate" Backends.google 10000

/-- The arguments of one search call after default resolution. -/
structure ResolvedArgs where
  max_results : Nat
  fetch_content : Bool
  fetch_content_max_chars : Nat
  safesearch : String
  backend : Backends
deriving DecidableEq

/-- The falsy-or default resolution at the top of `WebSearch._ainvoke`
(websearch.py lines 87-91). -/
def resolveArgs (self : WebSearchDefaults) (max_results : Option Nat)
    (fetch_content : Option Bool) (fetch_content_max_chars : Option Nat)
    (safesearch : Option String) (backend : Option Backends) : ResolvedArgs :=
  ResolvedArgs.mk
    (pyOrNat max_results self.max_results)
    (pyOrBool fetch_content self.fetch_content)
    (pyOrNat fetch_content_max_chars self.fetch_content_max_chars)
    (pyOrStr safesearch self.safesearch)
    (pyOrBackend backend self.backend)

/-- The provider call `ddgs.text(query, safesearch=..., max_results=...,
backend=...)` as an opaque function of its four arguments. -/
def Provider : Type :=
  String → String → Nat → Backends → Except String (List RawHit)

/-- `WebSearch._ainvoke` (websearch.py lines 65-130): resolve defaults, call
the provider (a failure propagates), map each raw hit through the schema (a
`ValidationError` propagates), then optionally enrich the collection with a
fresh default-configured `WebScraper`, passing `fetch_content_max_chars` as
the scrape budget.  Logging and the `httpx.AsyncClient` context manager (its
client is never used) are dropped. -/
def WebSearch.ainvokeCore (self : WebSearchDefaults) (provider : Provider)
    (env : ScrapeEnv) (query : String) (max_results : Option Nat)
    (fetch_content : Option Bool) (fetch_content_max_chars : Option Nat)
    (safesearch : Option String) (backend : Option Backends) :
    Except SearchError SearchResults :=
  let a := resolveArgs self max_results fetch_content fetch_content_max_chars safesearch backend
  match provider query a.safesearch a.max_results a.backend with
  | Except.error e => Except.error (SearchError.provider e)
  | Except.ok raws =>
    match mapHits raws with
    | Except.error e => Except.error e
    | Except.ok results =>
      if a.fetch_content then
        Except.ok (WebScraper.fetch_multiple defaultScraperCfg env
          (SearchResults.mk results) (some a.fetch_content_max_chars))
      else Except.ok (SearchResults.mk results)

/-- `WebSearch.invoke` (websearch.py lines 132-160): build an instance with
the class attributes and drive `_ainvoke` to completion with `asyncio.run`.
The log parameters only configure logging and are dropped. -/
def WebSearch.invoke (provider : Provider) (env : ScrapeEnv) (query : String)
    (max_results : Option Nat) (fetch_content : Option Bool)
    (fetch_content_max_chars : Option Nat) (safesearch : Option String)
    (backend : Option Backends) : Except SearchError SearchResults :=
  WebSearch.ainvokeCore websearchDefaults provider env query max_results
    fetch_content fetch_content_max_chars safesearch backend

/-- `WebSearch.ainvoke` (websearch.py lines 162-190): build an instance with
the class attributes and await `_ainvoke`. -/
def WebSearch.ainvoke (provider : Provider) (env : ScrapeEnv) (query : String)
    (max_results : Option Nat) (fetch_content : Option Bool)
    (fetch_content_max_chars : Option Nat) (safesearch : Option String)
    (backend : Option Backends) : Except SearchError SearchResults :=
  WebSearch.ainvokeCore websearchDefaults provider env query max_results
    fetch_content fetch_content_max_chars safesearch backend

theorem strMk_eq_empty_iff (l : List Char) : String.mk l = "" ↔ l = [] := by
  constructor
  · intro h
    exact congrArg String.data h
  · intro h
    subst h
    rfl

theorem strMk_data (s : String) : String.mk s.data = s := by
  cases s
  rfl

theorem data_append (a b : String) : (a ++ b).data = a.data ++ b.data := rfl

theorem splitWsAux_space (c : Char) (cs acc : List Char) (h : isPySpace c = true) :
    splitWsAux acc (c :: cs) =
      (if acc = [] then splitWsAux [] cs else acc.reverse :: splitWsAux [] cs) := by
  show (if isPySpace c = true then
      (if acc = [] then splitWsAux [] cs else acc.reverse :: splitWsAux [] cs)
    else splitWsAux (c :: acc) cs) = _
  rw [h, if_pos rfl]

theorem splitWsAux_nonspace (c : Char) (cs acc : List Char) (h : isPySpace c = false) :
    splitWsAux acc (c :: cs) = splitWsAux (c :: acc) cs := by
  show (if isPySpace c = true then
      (if acc = [] then splitWsAux [] cs else acc.reverse :: splitWsAux [] cs)
    else splitWsAux (c :: acc) cs) = _
  rw [h]
  rfl

theorem joinSpace_length_cons (t : List Char) (ts : List (List Char)) :
    (joinSpace (t :: ts)).length ≤ t.length + 1 + (joinSpace ts).length := by
  cases ts with
  | nil => simp [joinSpace]
  | cons t2 ts2 =>
    simp [joinSpace]
    omega

theorem splitWsAux_join_length (cs : List Char) :
    ∀ acc : List Char, (joinSpace (splitWsAux acc cs)).length ≤ acc.length + cs.length := by
  induction cs with
  | nil =>
    intro acc
    by_cases h : acc = [] <;> simp [splitWsAux, h, joinSpace]
  | cons c cs ih =>
    intro acc
    cases hsp : isPySpace c with
    | true =>
      rw [splitWsAux_space c cs acc hsp]
      by_cases hacc : acc = []
      · rw [if_pos hacc]
        subst hacc
        have := ih []
        simp only [List.length_nil, List.length_cons, Nat.zero_add] at this ⊢
        omega
      · rw [if_neg hacc]
        have h1 := joinSpace_length_cons acc.reverse (splitWsAux [] cs)
        have h2 := ih []
        have h3 : acc.reverse.length = acc.length := List.length_reverse acc
        simp only [List.length_nil, List.length_cons, Nat.zero_add] at h1 h2 ⊢
        omega
    | false =>
      rw [splitWsAux_nonspace c cs acc hsp]
      have := ih (c :: acc)
      simp only [List.length_cons] at this ⊢
      omega

theorem collapseWs_length (s : String) : (collapseWs s).length ≤ s.length := by
  have h := splitWsAux_join_length s.data []
  simp only [List.length_nil, Nat.zero_add] at h
  exact h

theorem splitWsAux_eq_nil (cs : List Char) :
    ∀ acc : List Char, splitWsAux acc cs = [] → acc = [] ∧ ∀ c ∈ cs, isPySpace c = true := by
  induction cs with
  | nil =>
    intro acc h
    by_cases hacc : acc = []
    · exact ⟨hacc, by simp⟩
    · simp [splitWsAux, hacc] at h
  | cons c cs ih =>
    intro acc h
    cases hsp : isPySpace c with
    | true =>
      rw [splitWsAux_space c cs acc hsp] at h
      by_cases hacc : acc = []
      · rw [if_pos hacc] at h
        refine ⟨hacc, ?_⟩
        intro x hx
        rcases List.mem_cons.mp hx with hx | hx
        · subst hx; exact hsp
        · exact (ih [] h).2 x hx
      · rw [if_neg hacc] at h
        simp at h
    | false =>
      rw [splitWsAux_nonspace c cs acc hsp] at h
      have := (ih (c :: acc) h).1
      simp at this

theorem splitWsAux_all_space (cs : List Char) (h : ∀ c ∈ cs, isPySpace c = true) :
    splitWsAux [] cs = [] := by
  induction cs with
  | nil => rfl
  | cons c cs ih =>
    rw [splitWsAux_space c cs [] (h c (List.mem_cons_self c cs)), if_pos rfl]
    exact ih (fun x hx => h x (List.mem_cons_of_mem c hx))

theorem splitWsAux_mem_ne_nil (cs : List Char) :
    ∀ acc t, t ∈ splitWsAux acc cs → t ≠ [] := by
  induction cs with
  | nil =>
    intro acc t ht
    by_cases hacc : acc = []
    · simp [splitWsAux, hacc] at ht
    · simp [splitWsAux, hacc] at ht
      subst ht
      simpa using hacc
  | cons c cs ih =>
    intro acc t ht
    cases hsp : isPySpace c with
    | true =>
      rw [splitWsAux_space c cs acc hsp] at ht
      by_cases hacc : acc = []
      · rw [if_pos hacc] at ht
        exact ih [] t ht
      · rw [if_neg hacc] at ht
        rcases List.mem_cons.mp ht with ht | ht
        · subst ht
          simpa using hacc
        · exact ih [] t ht
    | false =>
      rw [splitWsAux_nonspace c cs acc hsp] at ht
      exact ih (c :: acc) t ht

theorem collapseWs_eq_empty_iff (s : String) :
    collapseWs s = "" ↔ ∀ c ∈ s.data, isPySpace c = true := by
  constructor
  · intro h
    have hdata : joinSpace (splitWsAux [] s.data) = [] := (strMk_eq_empty_iff _).mp h
    cases hsplit : splitWsAux [] s.data with
    | nil => exact (splitWsAux_eq_nil s.data [] hsplit).2
    | cons t ts =>
      rw [hsplit] at hdata
      cases ts with
      | nil =>
        simp [joinSpace] at hdata
        exact absurd hdata (splitWsAux_mem_ne_nil s.data [] t (hsplit ▸ List.mem_cons_self t []))
      | cons t2 ts2 =>
        simp [joinSpace] at hdata
  · intro h
    unfold collapseWs
    rw [splitWsAux_all_space s.data h]
    rfl

theorem splitSlash_eq_none (l : List Char) (h : ('/' : Char) ∉ l) : splitSlash l = none := by
  induction l with
  | nil => rfl
  | cons c cs ih =>
    have hc : ¬(c = '/') := fun hcc => h (hcc ▸ List.mem_cons_self c cs)
    have hcs : ('/' : Char) ∉ cs := fun hm => h (List.mem_cons_of_mem c hm)
    show (if c = '/' then some ([], cs)
      else match splitSlash cs with
        | none => none
        | some p => some (c :: p.1, p.2)) = none
    rw [if_neg hc, ih hcs]

theorem splitSlash_append (l r : List Char) (h : ('/' : Char) ∉ l) :
    splitSlash (l ++ '/' :: r) = some (l, r) := by
  induction l with
  | nil =>
    show (if '/' = '/' then some (([] : List Char), r)
      else match splitSlash r with
        | none => none
        | some p => some ('/' :: p.1, p.2)) = some ([], r)
    rw [if_pos rfl]
  | cons c cs ih =>
    have hc : ¬(c = '/') := fun hcc => h (hcc ▸ List.mem_cons_self c cs)
    have hcs : ('/' : Char) ∉ cs := fun hm => h (List.mem_cons_of_mem c hm)
    show (if c = '/' then some (([] : List Char), cs ++ '/' :: r)
      else match splitSlash (cs ++ '/' :: r) with
        | none => none
        | some p => some (c :: p.1, p.2)) = some (c :: cs, r)
    rw [if_neg hc, ih hcs]

theorem not_mem_of_splitSlash_none (l : List Char) (h : splitSlash l = none) :
    ('/' : Char) ∉ l := by
  induction l with
  | nil => exact List.not_mem_nil '/'
  | cons c cs ih =>
    by_cases hc : c = '/'
    · exfalso
      have : splitSlash (c :: cs) = some ([], cs) := by
        show (if c = '/' then some (([] : List Char), cs) else _) = some ([], cs)
        rw [if_pos hc]
      rw [this] at h
      exact Option.noConfusion h
    · have hrec : splitSlash (c :: cs) =
          (match splitSlash cs with
            | none => none
            | some p => some (c :: p.1, p.2)) := by
        show (if c = '/' then some (([] : List Char), cs) else _) = _
        rw [if_neg hc]
      rw [hrec] at h
      cases hcs : splitSlash cs with
      | none =>
        intro hm
        rcases List.mem_cons.mp hm with hm | hm
        · exact hc hm.symm
        · exact ih hcs hm
      | some p =>
        rw [hcs] at h
        exact Option.noConfusion h

theorem not_mem_of_splitSlash_some (l : List Char) :
    ∀ pre post, splitSlash l = some (pre, post) → ('/' : Char) ∉ pre := by
  induction l with
  | nil =>
    intro pre post h
    exact Option.noConfusion h
  | cons c cs ih =>
    intro pre post h
    by_cases hc : c = '/'
    · have : splitSlash (c :: cs) = some ([], cs) := by
        show (if c = '/' then some (([] : List Char), cs) else _) = some ([], cs)
        rw [if_pos hc]
      rw [this] at h
      injection h with h
      injection h with h1 h2
      subst h1
      exact List.not_mem_nil '/'
    · have hrec : splitSlash (c :: cs) =
          (match splitSlash cs with
            | none => none
            | some p => some (c :: p.1, p.2)) := by
        show (if c = '/' then some (([] : List Char), cs) else _) = _
        rw [if_neg hc]
      rw [hrec] at h
      cases hcs : splitSlash cs with
      | none =>
        rw [hcs] at h
        exact Option.noConfusion h
      | some p =>
        rw [hcs] at h
        injection h with h
        injection h with h1 h2
        subst h1
        intro hm
        rcases List.mem_cons.mp hm with hm | hm
        · exact hc hm.symm
        · exact ih p.1 p.2 (by rw [hcs]) hm

theorem splitSep_http (t : List Char) :
    splitSep ('h' :: 't' :: 't' :: 'p' :: ':' :: '/' :: '/' :: t) = some (['h','t','t','p'], t) := rfl

theorem splitSep_https (t : List Char) :
    splitSep ('h' :: 't' :: 't' :: 'p' :: 's' :: ':' :: '/' :: '/' :: t) = some (['h','t','t','p','s'], t) := rfl

theorem urlparse_of_sep_none (s : String) (h : splitSep s.data = none) :
    urlparse s = ParsedUrl.mk "" "" s := by
  unfold urlparse
  rw [h]

theorem urlparse_of_sep_some (s : String) (sch after : List Char)
    (h : splitSep s.data = some (sch, after)) :
    urlparse s =
      (match splitSlash after with
        | none => ParsedUrl.mk (String.mk sch) (String.mk after) ""
        | some (nl, r) => ParsedUrl.mk (String.mk sch) (String.mk nl) (String.mk ('/' :: r))) := by
  unfold urlparse
  rw [h]

theorem urlparse_shape (s : String) (h : (urlparse s).scheme ≠ "") :
    ('/' : Char) ∉ (urlparse s).netloc.data ∧
      ((urlparse s).rest.data = [] ∨ ∃ rr, (urlparse s).rest.data = '/' :: rr) := by
  cases hss : splitSep s.data with
  | none =>
    rw [urlparse_of_sep_none s hss] at h
    exact absurd rfl h
  | some pr =>
    obtain ⟨sch, after⟩ := pr
    rw [urlparse_of_sep_some s sch after hss]
    cases hsl : splitSlash after with
    | none =>
      exact ⟨not_mem_of_splitSlash_none after hsl, Or.inl rfl⟩
    | some pq =>
      obtain ⟨nl, r⟩ := pq
      exact ⟨not_mem_of_splitSlash_some after nl r hsl, Or.inr ⟨r, rfl⟩⟩

theorem urlparse_roundtrip (p : ParsedUrl)
    (hs : p.scheme = "http" ∨ p.scheme = "https")
    (hn : ('/' : Char) ∉ p.netloc.data)
    (hr : p.rest.data = [] ∨ ∃ rr, p.rest.data = '/' :: rr) :
    urlparse (encodedString p) = p := by
  obtain ⟨sch, nl, rest⟩ := p
  obtain ⟨nld⟩ := nl
  obtain ⟨restd⟩ := rest
  rcases hs with hsch | hsch
  · have hsch2 : sch = "http" := hsch
    subst hsch2
    rw [urlparse_of_sep_some
      (encodedString (ParsedUrl.mk "http" (String.mk nld) (String.mk restd)))
      ['h','t','t','p'] (nld ++ restd) (splitSep_http (nld ++ restd))]
    rcases hr with h0 | ⟨rr, hrr⟩
    · have h02 : restd = [] := h0
      subst h02
      rw [List.append_nil, splitSlash_eq_none nld hn]
    · have hrr2 : restd = '/' :: rr := hrr
      subst hrr2
      rw [splitSlash_append nld rr hn]
  · have hsch2 : sch = "https" := hsch
    subst hsch2
    rw [urlparse_of_sep_some
      (encodedString (ParsedUrl.mk "https" (String.mk nld) (String.mk restd)))
      ['h','t','t','p','s'] (nld ++ restd) (splitSep_https (nld ++ restd))]
    rcases hr with h0 | ⟨rr, hrr⟩
    · have h02 : restd = [] := h0
      subst h02
      rw [List.append_nil, splitSlash_eq_none nld hn]
    · have hrr2 : restd = '/' :: rr := hrr
      subst hrr2
      rw [splitSlash_append nld rr hn]

theorem validateHttpUrl_ok (s : String) (p : ParsedUrl)
    (h : validateHttpUrl (some s) = Except.ok p) :
    p = urlparse s ∧ (p.scheme = "http" ∨ p.scheme = "https") ∧ p.netloc ≠ "" := by
  simp only [validateHttpUrl] at h
  split at h
  · injection h with h
    subst h
    constructor
    · rfl
    · assumption
  · exact Except.noConfusion h

theorem pyOrStr_ne_empty (x : Option String) (d : String) (hd : d ≠ "") :
    pyOrStr x d ≠ "" := by
  cases x with
  | none => exact hd
  | some s =>
    show (if s = "" then d else s) ≠ ""
    by_cases hs : s = ""
    · rw [if_pos hs]; exact hd
    · rw [if_neg hs]; exact hs

theorem mapHits_ok_length (hits : List RawHit) :
    ∀ rs : List SearchResult, mapHits hits = Except.ok rs → rs.length = hits.length := by
  induction hits with
  | nil =>
    intro rs h
    injection h with h
    subst h
    rfl
  | cons hd tl ih =>
    intro rs h
    simp only [mapHits] at h
    cases hm : mkSearchResult hd with
    | error e => rw [hm] at h; exact Except.noConfusion h
    | ok r =>
      rw [hm] at h
      cases ht : mapHits tl with
      | error e => rw [ht] at h; exact Except.noConfusion h
      | ok rs2 =>
        rw [ht] at h
        injection h with h
        subst h
        simp [ih rs2 ht]

theorem mapHits_error_validation (hits : List RawHit)
    (hbad : ∃ h ∈ hits, ∃ e, validateHttpUrl h.href = Except.error e) :
    ∃ e, mapHits hits = Except.error (SearchError.validation e) := by
  induction hits with
  | nil =>
    obtain ⟨x, hx, _⟩ := hbad
    exact absurd hx (List.not_mem_nil x)
  | cons hd tl ih =>
    cases hv : validateHttpUrl hd.href with
    | error e =>
      refine ⟨e, ?_⟩
      simp only [mapHits, mkSearchResult]
      rw [hv]
    | ok u =>
      obtain ⟨x, hx, e, he⟩ := hbad
      rcases List.mem_cons.mp hx with hx | hx
      · subst hx
        rw [hv] at he
        exact Except.noConfusion he
      · obtain ⟨e2, htl⟩ := ih ⟨x, hx, e, he⟩
        refine ⟨e2, ?_⟩
        simp only [mapHits, mkSearchResult]
        rw [hv, htl]

theorem fetch_content_guard_taken (cfg : ScraperConfig) (env : ScrapeEnv)
    (r : SearchResult) (mlo : Option Nat)
    (hg : (urlparse (encodedString r.url)).scheme = "" ∨ (urlparse (encodedString r.url)).netloc = "") :
    WebScraper.fetch_content cfg env r mlo = r := by
  simp only [WebScraper.fetch_content]
  rw [if_pos hg]

theorem fetch_content_resp (cfg : ScraperConfig) (env : ScrapeEnv)
    (r : SearchResult) (mlo : Option Nat) (resp : Response)
    (hg : ¬((urlparse (encodedString r.url)).scheme = "" ∨ (urlparse (encodedString r.url)).netloc = ""))
    (hh : env.http (encodedString r.url) = Except.ok resp) :
    WebScraper.fetch_content cfg env r mlo =
      (if 400 ≤ resp.statusCode ∧ resp.statusCode < 600 then r
       else if strContains (strToLower resp.contentType) "text/html" = false then r
       else
         match resp.body with
         | Except.error _ => r
         | Except.ok chunks =>
           match env.extract (readChunks chunks) with
           | none => r
           | some extracted =>
             let t := truncateText extracted (pyOrNat mlo cfg.maxContentLength)
             if t = "" then r
             else SearchResult.mk r.url r.title r.snippet (collapseWs t)) := by
  simp only [WebScraper.fetch_content]
  rw [if_neg hg, hh]

theorem fetch_content_http_error (cfg : ScraperConfig) (env : ScrapeEnv)
    (r : SearchResult) (mlo : Option Nat) (e : FetchError)
    (hg : ¬((urlparse (encodedString r.url)).scheme = "" ∨ (urlparse (encodedString r.url)).netloc = ""))
    (hh : env.http (encodedString r.url) = Except.error e) :
    WebScraper.fetch_content cfg env r mlo = r := by
  simp only [WebScraper.fetch_content]
  rw [if_neg hg, hh]

theorem fetch_content_extract_eq (cfg : ScraperConfig) (env : ScrapeEnv)
    (r : SearchResult) (mlo : Option Nat) (resp : Response) (chunks : List String)
    (hg : ¬((urlparse (encodedString r.url)).scheme = "" ∨ (urlparse (encodedString r.url)).netloc = ""))
    (hh : env.http (encodedString r.url) = Except.ok resp)
    (hstat : ¬(400 ≤ resp.statusCode ∧ resp.statusCode < 600))
    (hct : ¬(strContains (strToLower resp.contentType) "text/html" = false))
    (hb : resp.body = Except.ok chunks) :
    WebScraper.fetch_content cfg env r mlo =
      afterExtract r (pyOrNat mlo cfg.maxContentLength) (env.extract (readChunks chunks)) := by
  rw [fetch_content_resp cfg env r mlo resp hg hh, if_neg hstat, if_neg hct, hb]
  show (match env.extract (readChunks chunks) with
    | none => r
    | some extracted =>
      let t := truncateText extracted (pyOrNat mlo cfg.maxContentLength)
      if t = "" then r
      else SearchResult.mk r.url r.title r.snippet (collapseWs t))
    = afterExtract r (pyOrNat mlo cfg.maxContentLength) (env.extract (readChunks chunks))
  cases env.extract (readChunks chunks) with
  | none => rfl
  | some t => rfl

theorem readChunksAux_length (l : List String) :
    ∀ acc : String,
      (l.foldl (fun acc c => if c = "" then acc else acc ++ c) acc).length
        = acc.length + (l.map String.length).sum := by
  induction l with
  | nil =>
    intro acc
    simp
  | cons c cs ih =>
    intro acc
    by_cases hc : c = ""
    · subst hc
      simp only [List.foldl_cons, List.map_cons, List.sum_cons]
      rw [if_pos trivial, ih acc]
      have h0 : ("" : String).length = 0 := rfl
      omega
    · simp only [List.foldl_cons, if_neg hc, List.map_cons, List.sum_cons]
      rw [ih (acc ++ c)]
      have : (acc ++ c).length = acc.length + c.length := by
        show (acc.data ++ c.data).length = acc.data.length + c.data.length
        exact List.length_append acc.data c.data
      omega

theorem readChunks_length (chunks : List String) :
    (readChunks chunks).length = (chunks.map String.length).sum := by
  have h := readChunksAux_length chunks ""
  simpa using h

theorem ainvokeCore_ok_hits (self : WebSearchDefaults) (prov : Provider)
    (env : ScrapeEnv) (q : String) (mr : Option Nat) (fc : Option Bool)
    (fcm : Option Nat) (ss : Option String) (be : Option Backends)
    (hits : List RawHit)
    (hp : prov q (resolveArgs self mr fc fcm ss be).safesearch
        (resolveArgs self mr fc fcm ss be).max_results
        (resolveArgs self mr fc fcm ss be).backend = Except.ok hits) :
    WebSearch.ainvokeCore self prov env q mr fc fcm ss be =
      (match mapHits hits with
       | Except.error e => Except.error e
       | Except.ok results =>
         if (resolveArgs self mr fc fcm ss be).fetch_content then
           Except.ok (WebScraper.fetch_multiple defaultScraperCfg env
             (SearchResults.mk results)
             (some (resolveArgs self mr fc fcm ss be).fetch_content_max_chars))
         else Except.ok (SearchResults.mk results)) := by
  simp only [WebSearch.ainvokeCore]
  rw [hp]

/-- Claim C5 (confirmed): end-to-end with a mocked provider returning the single
record with href "https://a.test", title "A", body "B", and with
fetch_content explicitly false, the search returns exactly one entry whose
url is the validated https://a.test, whose title is "A" and whose snippet and
content are both "B"; the stored URL serialises back to "https://a.test". -/
theorem C5_end_to_end :
    WebSearch.ainvokeCore websearchDefaults
      (fun _ _ _ _ => Except.ok [RawHit.mk (some "https://a.test") (some "A") (some "B")])
      (ScrapeEnv.mk (fun _ => Except.error FetchError.connectionError) (fun _ => none))
      "q" none (some false) none none none
      = Except.ok (SearchResults.mk
          [SearchResult.mk (ParsedUrl.mk "https" "a.test" "") "A" "B" "B"])
    ∧ encodedString (ParsedUrl.mk "https" "a.test" "") = "https://a.test" :=
  ⟨rfl, rfl⟩

/-- Claim C8 (confirmed): for identical parameters and identical external
provider/HTTP behaviour, the blocking entry point `invoke` and the
non-blocking entry point `ainvoke` produce identical outputs — both delegate
to the same `_ainvoke` logic, differing only in scheduling, which the
embedding abstracts away. -/
theorem C8_invoke_ainvoke_agree (prov : Provider) (env : ScrapeEnv) (query : String)
    (max_results : Option Nat) (fetch_content : Option Bool)
    (fetch_content_max_chars : Option Nat) (safesearch : Option String)
    (backend : Option Backends) :
    WebSearch.invoke prov env query max_results fetch_content fetch_content_max_chars safesearch backend
      = WebSearch.ainvoke prov env query max_results fetch_content fetch_content_max_chars safesearch backend :=
  rfl

/-- Claim C9 (confirmed): omitting every search parameter resolves to the
defaults max_results = 5, fetch_content = false, fetch_content_max_chars =
10000, safesearch = "moderate", backend = google; and because unset-ness is
detected with the falsy-or pattern, the explicit value max_results = 0
resolves to exactly the same defaults as omitting the parameter. -/
theorem C9_defaults :
    resolveArgs websearchDefaults none none none none none
        = ResolvedArgs.mk 5 false 10000 "moderate" Backends.google
      ∧ resolveArgs websearchDefaults (some 0) none none none none
        = ResolvedArgs.mk 5 false 10000 "moderate" Backends.google :=
  ⟨rfl, rfl⟩

/-- Claim C10 (confirmed): for every SearchResult URL that was accepted by the
schema's HttpUrl validation, re-parsing its serialised form inside
`fetch_content` always yields a nonempty scheme and a nonempty host, so the
invalid-URL guard branch of scraper.py line 79 can never be taken. -/
theorem C10_guard_unreachable (s : String) (p : ParsedUrl)
    (h : validateHttpUrl (some s) = Except.ok p) :
    ¬((urlparse (encodedString p)).scheme = "" ∨ (urlparse (encodedString p)).netloc = "") := by
  obtain ⟨hp, hs, hn⟩ := validateHttpUrl_ok s p h
  have hsch_ne : p.scheme ≠ "" := by
    rcases hs with h1 | h1 <;> rw [h1] <;> decide
  have hshape := urlparse_shape s (by rw [← hp]; exact hsch_ne)
  rw [← hp] at hshape
  have hrt := urlparse_roundtrip p hs hshape.1 hshape.2
  rw [hrt]
  intro hcon
  rcases hcon with hcon | hcon
  · exact hsch_ne hcon
  · exact hn hcon

/-- Witness for C10 at the concrete validated URL https://a.test. -/
theorem C10_guard_unreachable_witness :
    ¬((urlparse (encodedString (ParsedUrl.mk "https" "a.test" ""))).scheme = ""
      ∨ (urlparse (encodedString (ParsedUrl.mk "https" "a.test" ""))).netloc = "") :=
  C10_guard_unreachable "https://a.test" (ParsedUrl.mk "https" "a.test" "") rfl

/-- Claim C6 (confirmed): for every input SearchResult and every per-item
failure mode — the HTTP call raising (network error or timeout), a
non-success HTTP status (400-599, which `raise_for_status` turns into a
caught exception), a non-HTML content-type, a failure while reading/decoding
the body, or an empty extraction (extractor returns nothing, or the
truncated text is empty) — `fetch_content` returns the input result
unchanged; the model is a total function, so no error escapes to the
caller. -/
theorem C6_fetch_failure_unchanged (cfg : ScraperConfig) (env : ScrapeEnv)
    (r : SearchResult) (mlo : Option Nat)
    (hfail :
      (∃ e, env.http (encodedString r.url) = Except.error e)
      ∨ (∃ resp, env.http (encodedString r.url) = Except.ok resp
          ∧ 400 ≤ resp.statusCode ∧ resp.statusCode < 600)
      ∨ (∃ resp, env.http (encodedString r.url) = Except.ok resp
          ∧ strContains (strToLower resp.contentType) "text/html" = false)
      ∨ (∃ resp e, env.http (encodedString r.url) = Except.ok resp
          ∧ resp.body = Except.error e)
      ∨ (∃ resp chunks, env.http (encodedString r.url) = Except.ok resp
          ∧ resp.body = Except.ok chunks
          ∧ env.extract (readChunks chunks) = none)
      ∨ (∃ resp chunks t, env.http (encodedString r.url) = Except.ok resp
          ∧ resp.body = Except.ok chunks
          ∧ env.extract (readChunks chunks) = some t
          ∧ truncateText t (pyOrNat mlo cfg.maxContentLength) = "")) :
    WebScraper.fetch_content cfg env r mlo = r := by
  by_cases hg : ((urlparse (encodedString r.url)).scheme = ""
      ∨ (urlparse (encodedString r.url)).netloc = "")
  · exact fetch_content_guard_taken cfg env r mlo hg
  · rcases hfail with ⟨e, he⟩ | ⟨resp, hh, hs1, hs2⟩ | ⟨resp, hh, hct⟩
      | ⟨resp, e, hh, hb⟩ | ⟨resp, chunks, hh, hb, hx⟩ | ⟨resp, chunks, t, hh, hb, hx, htr⟩
    · exact fetch_content_http_error cfg env r mlo e hg he
    · rw [fetch_content_resp cfg env r mlo resp hg hh, if_pos ⟨hs1, hs2⟩]
    · by_cases hstat : 400 ≤ resp.statusCode ∧ resp.statusCode < 600
      · rw [fetch_content_resp cfg env r mlo resp hg hh, if_pos hstat]
      · rw [fetch_content_resp cfg env r mlo resp hg hh, if_neg hstat, if_pos hct]
    · by_cases hstat : 400 ≤ resp.statusCode ∧ resp.statusCode < 600
      · rw [fetch_content_resp cfg env r mlo resp hg hh, if_pos hstat]
      · by_cases hct : strContains (strToLower resp.contentType) "text/html" = false
        · rw [fetch_content_resp cfg env r mlo resp hg hh, if_neg hstat, if_pos hct]
        · rw [fetch_content_resp cfg env r mlo resp hg hh, if_neg hstat, if_neg hct, hb]
    · by_cases hstat : 400 ≤ resp.statusCode ∧ resp.statusCode < 600
      · rw [fetch_content_resp cfg env r mlo resp hg hh, if_pos hstat]
      · by_cases hct : strContains (strToLower resp.contentType) "text/html" = false
        · rw [fetch_content_resp cfg env r mlo resp hg hh, if_neg hstat, if_pos hct]
        · rw [fetch_content_extract_eq cfg env r mlo resp chunks hg hh hstat hct hb, hx]
          rfl
    · by_cases hstat : 400 ≤ resp.statusCode ∧ resp.statusCode < 600
      · rw [fetch_content_resp cfg env r mlo resp hg hh, if_pos hstat]
      · by_cases hct : strContains (strToLower resp.contentType) "text/html" = false
        · rw [fetch_content_resp cfg env r mlo resp hg hh, if_neg hstat, if_pos hct]
        · rw [fetch_content_extract_eq cfg env r mlo resp chunks hg hh hstat hct hb, hx]
          show (let t2 := truncateText t (pyOrNat mlo cfg.maxContentLength)
            if t2 = "" then r
            else SearchResult.mk r.url r.title r.snippet (collapseWs t2)) = r
          rw [if_pos htr]

/-- Witness for C6: a concrete timeout leaves the concrete result unchanged. -/
theorem C6_fetch_failure_unchanged_witness :
    WebScraper.fetch_content defaultScraperCfg
      (ScrapeEnv.mk (fun _ => Except.error FetchError.timeout) (fun _ => none))
      (SearchResult.mk (ParsedUrl.mk "https" "a.test" "") "A" "B" "B") none
      = SearchResult.mk (ParsedUrl.mk "https" "a.test" "") "A" "B" "B" :=
  C6_fetch_failure_unchanged defaultScraperCfg
    (ScrapeEnv.mk (fun _ => Except.error FetchError.timeout) (fun _ => none))
    (SearchResult.mk (ParsedUrl.mk "https" "a.test" "") "A" "B" "B") none
    (Or.inl ⟨FetchError.timeout, rfl⟩)

/-- Claim C7 (confirmed): when the extractor output is longer than the
resolved budget (and the budget is positive, which the falsy-or defaulting
guarantees in every reachable configuration), the content stored by
`fetch_content` has length at most the budget: the text is truncated, and
the subsequent whitespace collapse can only shorten it further. -/
theorem C7_truncation_bound (cfg : ScraperConfig) (env : ScrapeEnv)
    (r : SearchResult) (mlo : Option Nat) (resp : Response) (chunks : List String) (t : String)
    (hg : ¬((urlparse (encodedString r.url)).scheme = "" ∨ (urlparse (encodedString r.url)).netloc = ""))
    (hh : env.http (encodedString r.url) = Except.ok resp)
    (hstat : ¬(400 ≤ resp.statusCode ∧ resp.statusCode < 600))
    (hct : ¬(strContains (strToLower resp.contentType) "text/html" = false))
    (hb : resp.body = Except.ok chunks)
    (hx : env.extract (readChunks chunks) = some t)
    (hpos : 0 < pyOrNat mlo cfg.maxContentLength)
    (hlong : pyOrNat mlo cfg.maxContentLength < t.length) :
    (WebScraper.fetch_content cfg env r mlo).content.length
      ≤ pyOrNat mlo cfg.maxContentLength := by
  rw [fetch_content_extract_eq cfg env r mlo resp chunks hg hh hstat hct hb, hx]
  show (let t2 := truncateText t (pyOrNat mlo cfg.maxContentLength)
    if t2 = "" then r
    else SearchResult.mk r.url r.title r.snippet (collapseWs t2)).content.length
    ≤ pyOrNat mlo cfg.maxContentLength
  have htr : truncateText t (pyOrNat mlo cfg.maxContentLength)
      = String.mk (t.data.take (pyOrNat mlo cfg.maxContentLength)) := by
    unfold truncateText
    rw [if_pos hlong]
  have hlen : (t.data.take (pyOrNat mlo cfg.maxContentLength)).length
      = pyOrNat mlo cfg.maxContentLength := by
    rw [List.length_take]
    exact Nat.min_eq_left (Nat.le_of_lt hlong)
  have hne : ¬(truncateText t (pyOrNat mlo cfg.maxContentLength) = "") := by
    rw [htr, strMk_eq_empty_iff]
    intro h0
    rw [h0] at hlen
    simp at hlen
    omega
  show (if truncateText t (pyOrNat mlo cfg.maxContentLength) = "" then r
    else SearchResult.mk r.url r.title r.snippet
      (collapseWs (truncateText t (pyOrNat mlo cfg.maxContentLength)))).content.length
    ≤ pyOrNat mlo cfg.maxContentLength
  rw [if_neg hne, htr]
  show (collapseWs (String.mk (t.data.take (pyOrNat mlo cfg.maxContentLength)))).length
    ≤ pyOrNat mlo cfg.maxContentLength
  calc (collapseWs (String.mk (t.data.take (pyOrNat mlo cfg.maxContentLength)))).length
      ≤ (String.mk (t.data.take (pyOrNat mlo cfg.maxContentLength))).length :=
        collapseWs_length _
    _ = pyOrNat mlo cfg.maxContentLength := hlen

/-- Witness for C7: budget 3 against a 6-character extraction stores content
of length at most 3. -/
theorem C7_truncation_bound_witness :
    (WebScraper.fetch_content defaultScraperCfg
      (ScrapeEnv.mk (fun _ => Except.ok (Response.mk 200 "text/html" (Except.ok ["x"])))
        (fun _ => some "abcdef"))
      (SearchResult.mk (ParsedUrl.mk "https" "a.test" "") "A" "B" "B")
      (some 3)).content.length ≤ pyOrNat (some 3) defaultScraperCfg.maxContentLength :=
  C7_truncation_bound defaultScraperCfg
    (ScrapeEnv.mk (fun _ => Except.ok (Response.mk 200 "text/html" (Except.ok ["x"])))
      (fun _ => some "abcdef"))
    (SearchResult.mk (ParsedUrl.mk "https" "a.test" "") "A" "B" "B")
    (some 3) (Response.mk 200 "text/html" (Except.ok ["x"])) ["x"] "abcdef"
    (by decide) rfl (by decide) (by decide) rfl rfl (by decide) (by decide)

/-- Claim C4 counterexample: with a budget of 10 characters and a response
body of two 10-character chunks, the extractor observes an input longer than
10 characters (this environment's extractor answers "L" exactly on inputs
longer than 10, and "L" is what gets stored), and the read loop's output has
length 20 — so reading does not stop once the budget is exceeded and the
body handed to the extractor exceeds the budget, refuting the claim. -/
theorem C4_counterexample :
    (WebScraper.fetch_content defaultScraperCfg
      (ScrapeEnv.mk
        (fun _ => Except.ok (Response.mk 200 "text/html" (Except.ok ["aaaaaaaaaa", "bbbbbbbbbb"])))
        (fun s => if s.length ≤ 10 then some "S" else some "L"))
      (SearchResult.mk (ParsedUrl.mk "https" "a.test" "") "A" "B" "B")
      (some 10)).content = "L"
    ∧ (readChunks ["aaaaaaaaaa", "bbbbbbbbbb"]).length = 20 :=
  ⟨rfl, rfl⟩

/-- Claim C4 amended: `fetch_content` reads the HTTP response body in full —
the loop of scraper.py lines 104-108 concatenates every chunk and applies no
budget while reading, so the body handed to the extractor is the entire
response body, whose length is the sum of all chunk lengths and may exceed
max_content_chars; the budget is enforced only afterwards, by truncating the
extracted text (the `afterExtract` stage). -/
theorem C4_amended_full_read (cfg : ScraperConfig) (env : ScrapeEnv)
    (r : SearchResult) (mlo : Option Nat) (resp : Response) (chunks : List String)
    (hg : ¬((urlparse (encodedString r.url)).scheme = "" ∨ (urlparse (encodedString r.url)).netloc = ""))
    (hh : env.http (encodedString r.url) = Except.ok resp)
    (hstat : ¬(400 ≤ resp.statusCode ∧ resp.statusCode < 600))
    (hct : ¬(strContains (strToLower resp.contentType) "text/html" = false))
    (hb : resp.body = Except.ok chunks) :
    WebScraper.fetch_content cfg env r mlo
        = afterExtract r (pyOrNat mlo cfg.maxContentLength) (env.extract (readChunks chunks))
      ∧ (readChunks chunks).length = (chunks.map String.length).sum :=
  ⟨fetch_content_extract_eq cfg env r mlo resp chunks hg hh hstat hct hb,
    readChunks_length chunks⟩

/-- Witness for the amended C4 at the counterexample environment. -/
theorem C4_amended_full_read_witness :
    WebScraper.fetch_content defaultScraperCfg
      (ScrapeEnv.mk
        (fun _ => Except.ok (Response.mk 200 "text/html" (Except.ok ["aaaaaaaaaa", "bbbbbbbbbb"])))
        (fun s => if s.length ≤ 10 then some "S" else some "L"))
      (SearchResult.mk (ParsedUrl.mk "https" "a.test" "") "A" "B" "B") (some 10)
        = afterExtract (SearchResult.mk (ParsedUrl.mk "https" "a.test" "") "A" "B" "B")
          (pyOrNat (some 10) defaultScraperCfg.maxContentLength)
          ((fun s => if String.length s ≤ 10 then some "S" else some "L")
            (readChunks ["aaaaaaaaaa", "bbbbbbbbbb"]))
      ∧ (readChunks ["aaaaaaaaaa", "bbbbbbbbbb"]).length
        = ((["aaaaaaaaaa", "bbbbbbbbbb"] : List String).map String.length).sum :=
  C4_amended_full_read defaultScraperCfg
    (ScrapeEnv.mk
      (fun _ => Except.ok (Response.mk 200 "text/html" (Except.ok ["aaaaaaaaaa", "bbbbbbbbbb"])))
      (fun s => if s.length ≤ 10 then some "S" else some "L"))
    (SearchResult.mk (ParsedUrl.mk "https" "a.test" "") "A" "B" "B") (some 10)
    (Response.mk 200 "text/html" (Except.ok ["aaaaaaaaaa", "bbbbbbbbbb"]))
    ["aaaaaaaaaa", "bbbbbbbbbb"]
    (by decide) rfl (by decide) (by decide) rfl

/-- Claim C1 counterexample: the provider call succeeds and returns one raw
hit whose href "example.com" is malformed (no scheme); the search does not
return normally with the hit passed through — it surfaces a URL validation
error to the caller, refuting the claim. -/
theorem C1_counterexample :
    WebSearch.ainvokeCore websearchDefaults
      (fun _ _ _ _ => Except.ok [RawHit.mk (some "example.com") (some "T") (some "B")])
      (ScrapeEnv.mk (fun _ => Except.error FetchError.connectionError) (fun _ => none))
      "q" none none none none none
      = Except.error (SearchError.validation "Input should be a valid URL") :=
  rfl

/-- Claim C1 amended: when the provider call succeeds but some raw hit has a
malformed or missing href, the pydantic HttpUrl validation performed while
constructing the SearchResult raises, and that ValidationError propagates to
the caller: a malformed href is a second case, besides provider-level
failure, that surfaces as an error; the hit is not passed through
unenriched. -/
theorem C1_amended_href_error (self : WebSearchDefaults) (prov : Provider)
    (env : ScrapeEnv) (query : String) (mr : Option Nat) (fc : Option Bool)
    (fcm : Option Nat) (ss : Option String) (be : Option Backends)
    (hits : List RawHit)
    (hp : prov query (resolveArgs self mr fc fcm ss be).safesearch
        (resolveArgs self mr fc fcm ss be).max_results
        (resolveArgs self mr fc fcm ss be).backend = Except.ok hits)
    (hbad : ∃ h ∈ hits, ∃ e, validateHttpUrl h.href = Except.error e) :
    ∃ e, WebSearch.ainvokeCore self prov env query mr fc fcm ss be
      = Except.error (SearchError.validation e) := by
  obtain ⟨e, hmaps⟩ := mapHits_error_validation hits hbad
  refine ⟨e, ?_⟩
  rw [ainvokeCore_ok_hits self prov env query mr fc fcm ss be hits hp, hmaps]

/-- Witness for the amended C1 at the concrete malformed hit. -/
theorem C1_amended_href_error_witness :
    ∃ e, WebSearch.ainvokeCore websearchDefaults
      (fun _ _ _ _ => Except.ok [RawHit.mk (some "example.com") (some "T") (some "B")])
      (ScrapeEnv.mk (fun _ => Except.error FetchError.connectionError) (fun _ => none))
      "q" none none none none none
      = Except.error (SearchError.validation e) :=
  C1_amended_href_error websearchDefaults
    (fun _ _ _ _ => Except.ok [RawHit.mk (some "example.com") (some "T") (some "B")])
    (ScrapeEnv.mk (fun _ => Except.error FetchError.connectionError) (fun _ => none))
    "q" none none none none none
    [RawHit.mk (some "example.com") (some "T") (some "B")]
    rfl
    ⟨RawHit.mk (some "example.com") (some "T") (some "B"),
      List.mem_cons_self _ _,
      "Input should be a valid URL", rfl⟩

/-- Claim C3 counterexample: with requested max_results = 1 and a provider
response containing two raw hits, the search succeeds and returns a
collection of two results — more than the requested maximum — refuting the
universally quantified claim: the orchestrator never truncates to
max_results itself. -/
theorem C3_counterexample :
    WebSearch.ainvokeCore websearchDefaults
      (fun _ _ _ _ => Except.ok
        [RawHit.mk (some "https://a.test") (some "A") (some "B"),
         RawHit.mk (some "https://b.test") (some "C") (some "D")])
      (ScrapeEnv.mk (fun _ => Except.error FetchError.connectionError) (fun _ => none))
      "q" (some 1) none none none none
      = Except.ok (SearchResults.mk
          [SearchResult.mk (ParsedUrl.mk "https" "a.test" "") "A" "B" "B",
           SearchResult.mk (ParsedUrl.mk "https" "b.test" "") "C" "D" "D"])
    ∧ (SearchResults.mk
        [SearchResult.mk (ParsedUrl.mk "https" "a.test" "") "A" "B" "B",
         SearchResult.mk (ParsedUrl.mk "https" "b.test" "") "C" "D" "D"]).data.length = 2 :=
  ⟨rfl, rfl⟩

/-- Claim C3 amended: a successful search returns exactly one result per raw
hit, in provider order (the enrichment pass, when enabled, is an in-order
map that preserves cardinality and writes each item back at its original
position); the collection has at most n results whenever the provider
honours the forwarded max_results and returns at most n raw hits. -/
theorem C3_amended_length_order (self : WebSearchDefaults) (prov : Provider)
    (env : ScrapeEnv) (query : String) (n : Nat) (fc : Option Bool)
    (fcm : Option Nat) (ss : Option String) (be : Option Backends)
    (hits : List RawHit) (results : List SearchResult)
    (hp : prov query (resolveArgs self (some n) fc fcm ss be).safesearch
        (resolveArgs self (some n) fc fcm ss be).max_results
        (resolveArgs self (some n) fc fcm ss be).backend = Except.ok hits)
    (hm : mapHits hits = Except.ok results)
    (hlen : hits.length ≤ n) :
    ∃ rs : SearchResults,
      WebSearch.ainvokeCore self prov env query (some n) fc fcm ss be = Except.ok rs
      ∧ rs.data.length = hits.length
      ∧ rs.data.length ≤ n
      ∧ rs.data = (if (resolveArgs self (some n) fc fcm ss be).fetch_content then
          results.map (fun r => WebScraper.fetch_content defaultScraperCfg env r
            (some (resolveArgs self (some n) fc fcm ss be).fetch_content_max_chars))
        else results) := by
  have hrlen : results.length = hits.length := mapHits_ok_length hits results hm
  rw [ainvokeCore_ok_hits self prov env query (some n) fc fcm ss be hits hp, hm]
  by_cases hfc : (resolveArgs self (some n) fc fcm ss be).fetch_content
  · refine ⟨WebScraper.fetch_multiple defaultScraperCfg env (SearchResults.mk results)
      (some (resolveArgs self (some n) fc fcm ss be).fetch_content_max_chars), ?_, ?_, ?_, ?_⟩
    · show (if (resolveArgs self (some n) fc fcm ss be).fetch_content then _ else _) = _
      rw [if_pos hfc]
    · show (results.map _).length = hits.length
      rw [List.length_map]
      exact hrlen
    · show (results.map _).length ≤ n
      rw [List.length_map, hrlen]
      exact hlen
    · show results.map _ = _
      rw [if_pos hfc]
  · refine ⟨SearchResults.mk results, ?_, hrlen, ?_, ?_⟩
    · show (if (resolveArgs self (some n) fc fcm ss be).fetch_content then _ else _) = _
      rw [if_neg hfc]
    · show results.length ≤ n
      rw [hrlen]
      exact hlen
    · show results = _
      rw [if_neg hfc]

/-- Witness for the amended C3 at a concrete one-hit provider. -/
theorem C3_amended_length_order_witness :
    ∃ rs : SearchResults,
      WebSearch.ainvokeCore websearchDefaults
        (fun _ _ _ _ => Except.ok [RawHit.mk (some "https://a.test") (some "A") (some "B")])
        (ScrapeEnv.mk (fun _ => Except.error FetchError.connectionError) (fun _ => none))
        "q" (some 1) none none none none = Except.ok rs
      ∧ rs.data.length = ([RawHit.mk (some "https://a.test") (some "A") (some "B")]).length
      ∧ rs.data.length ≤ 1
      ∧ rs.data = (if (resolveArgs websearchDefaults (some 1) none none none none).fetch_content then
          ([SearchResult.mk (ParsedUrl.mk "https" "a.test" "") "A" "B" "B"]).map
            (fun r => WebScraper.fetch_content defaultScraperCfg
              (ScrapeEnv.mk (fun _ => Except.error FetchError.connectionError) (fun _ => none)) r
              (some (resolveArgs websearchDefaults (some 1) none none none none).fetch_content_max_chars))
        else [SearchResult.mk (ParsedUrl.mk "https" "a.test" "") "A" "B" "B"]) :=
  C3_amended_length_order websearchDefaults
    (fun _ _ _ _ => Except.ok [RawHit.mk (some "https://a.test") (some "A") (some "B")])
    (ScrapeEnv.mk (fun _ => Except.error FetchError.connectionError) (fun _ => none))
    "q" 1 none none none none
    [RawHit.mk (some "https://a.test") (some "A") (some "B")]
    [SearchResult.mk (ParsedUrl.mk "https" "a.test" "") "A" "B" "B"]
    rfl rfl (by decide)

/-- Claim C2 counterexample: on a successful fetch whose extractor output is
the non-empty all-whitespace text "   ", `fetch_content` passes the
emptiness guard (checked before whitespace collapse) and then stores the
collapsed text, which is the empty string — so enrichment can store an
empty content, refuting the claim. -/
theorem C2_counterexample :
    WebScraper.fetch_content defaultScraperCfg
      (ScrapeEnv.mk (fun _ => Except.ok (Response.mk 200 "text/html" (Except.ok ["<p>x</p>"])))
        (fun _ => some "   "))
      (SearchResult.mk (ParsedUrl.mk "https" "a.test" "") "A" "B" "B") none
      = SearchResult.mk (ParsedUrl.mk "https" "a.test" "") "A" "B" "" :=
  rfl

/-- Claim C2 amended: every mapped result starts with non-empty content (the
snippet or the fixed fallback string "no body from ddgs"), and the
whitespace-collapsed text stored by enrichment is empty exactly when the
(truncated) extractor output consists entirely of whitespace — in that one
case the stored content is the empty string, otherwise it is non-empty. -/
theorem C2_amended_content_nonempty :
    (∀ (hit : RawHit) (r : SearchResult), mkSearchResult hit = Except.ok r → r.content ≠ "")
    ∧ (∀ u : String, collapseWs u = "" ↔ ∀ c ∈ u.data, isPySpace c = true) := by
  constructor
  · intro hit r h
    unfold mkSearchResult at h
    cases hv : validateHttpUrl hit.href with
    | error e => rw [hv] at h; exact Except.noConfusion h
    | ok u =>
      rw [hv] at h
      injection h with h
      subst h
      show pyOrStr hit.body "no body from ddgs" ≠ ""
      exact pyOrStr_ne_empty hit.body "no body from ddgs" (by decide)
  · exact collapseWs_eq_empty_iff

/-- Witness for the amended C2: the mapped concrete result has non-empty
content, and collapsing the all-whitespace text "   " yields the empty
string. -/
theorem C2_amended_content_nonempty_witness :
    (SearchResult.mk (ParsedUrl.mk "https" "a.test" "") "A" "B" "B").content ≠ ""
    ∧ collapseWs "   " = "" :=
  ⟨C2_amended_content_nonempty.1
      (RawHit.mk (some "https://a.test") (some "A") (some "B"))
      (SearchResult.mk (ParsedUrl.mk "https" "a.test" "") "A" "B" "B") rfl,
    (C2_amended_content_nonempty.2 "   ").mpr (by decide)⟩
